import Mathlib


/-!
Verification of the chesstic mistake-analysis core.

This file shallowly embeds the move-quality analysis pipeline of
`app/services/mistake_analysis_service.py` and the background-task store of
`app/utils/task_manager.py`, and proves the specified properties about them.

Modelling conventions:
* Python machine-independent `int` is modelled as `ℤ` (or `ℕ` where the
  source value is a count or an index that is provably non-negative).
* Python `float` arithmetic (`/`, `round`, `int(...)` truncation) is modelled
  as exact rational arithmetic over `ℚ`; `int(x)` for `x ≥ 0` is `⌊x⌋`.
* Python `set` becomes `Finset ℕ`; Python `dict` keyed by a fixed set of
  string literals becomes a structure, with the string-keyed access of the
  source mirrored by `getStage`/`setStage` below.
* A parsed PGN game is abstracted by the number of plies of its mainline and
  the colour to move in its initial position; the engine/Lichess evaluation
  (`_evaluate_position`) is abstracted as an arbitrary function from the
  position index (number of plies already played) to `Option ℤ`, since the
  position reached after `k` plies of a fixed game determines the score the
  oracle may return, and the analysis observes nothing else about the board.
* Wall-clock time (`datetime.now()`) is passed to each task operation as an
  explicit rational timestamp in seconds.
-/

namespace Chesstic

/-! ## Definitions -/

def EARLY_GAME_END : ℕ := 7

def MIDDLE_GAME_END : ℕ := 20

def INACCURACY_THRESHOLD : ℤ := 50

def MISTAKE_THRESHOLD : ℤ := 100

def BLUNDER_THRESHOLD : ℤ := 200

def SKIP_EVAL_THRESHOLD : ℤ := 600

def MOVES_PER_STAGE : ℕ := 5

def MAX_MOVES_PER_GAME : ℕ := 15

def MAX_ANALYSIS_GAMES : ℕ := 10

/-- `_get_stage`: stage from the 1-based full-move number. -/
def _get_stage (move_number : ℕ) : String :=
  if move_number ≤ EARLY_GAME_END then "early"
  else if move_number ≤ MIDDLE_GAME_END then "middle"
  else "endgame"

/-- `_classify_mistake`: severity class from the centipawn loss. -/
def _classify_mistake (cp_loss : ℤ) : Option String :=
  if cp_loss ≥ BLUNDER_THRESHOLD then some "blunder"
  else if cp_loss ≥ MISTAKE_THRESHOLD then some "mistake"
  else if cp_loss ≥ INACCURACY_THRESHOLD then some "inaccuracy"
  else none

/-- `_select_moves_to_analyze`: strategic sampling of the player's move
indices.  `int(i * step)` with the float `step = middle_range / middle_moves`
is modelled exactly as `⌊i * middle_range / middle_moves⌋`, i.e. natural
division. -/
def _select_moves_to_analyze (total_player_moves : ℕ) : Finset ℕ :=
  -- If game has <= 15 moves, analyze all
  if total_player_moves ≤ MAX_MOVES_PER_GAME then
    Finset.range total_player_moves
  else
    let early_end := total_player_moves / 3
    let middle_end := 2 * total_player_moves / 3
    let early_moves := min MOVES_PER_STAGE early_end
    let early_selected := Finset.range early_moves
    let endgame_moves := min MOVES_PER_STAGE (total_player_moves - middle_end)
    let endgame_selected := Finset.Ico (total_player_moves - endgame_moves) total_player_moves
    let middle_range := middle_end - early_end
    let middle_moves := min MOVES_PER_STAGE middle_range
    let middle_selected : Finset ℕ :=
      if 0 < middle_moves ∧ 0 < middle_range then
        (Finset.range middle_moves).image
          (fun i => early_end + i * middle_range / middle_moves)
      else ∅
    let moves_to_analyze := early_selected ∪ middle_selected ∪ endgame_selected
    -- Redistribution: fill remaining slots from the unselected indices
    if moves_to_analyze.card < MAX_MOVES_PER_GAME then
      let remaining_slots := MAX_MOVES_PER_GAME - moves_to_analyze.card
      let unselected := Finset.range total_player_moves \ moves_to_analyze
      if unselected.Nonempty then
        let unselected_list := unselected.sort (· ≤ ·)
        let k := min remaining_slots unselected_list.length
        moves_to_analyze ∪
          (Finset.range k).image
            (fun i => unselected_list.getD (i * unselected_list.length / k) 0)
      else moves_to_analyze
    else moves_to_analyze

/-- The `worst_mistake` dict of a stage. -/
structure WorstMistake where
  move_number : ℕ
  cp_loss : ℤ
  type : String
deriving DecidableEq

/-- One per-stage entry of the `mistakes` dict built by
`analyze_game_mistakes`. -/
structure StageStats where
  total_moves : ℕ
  inaccuracies : ℕ
  mistakes : ℕ
  blunders : ℕ
  missed_opps : ℕ
  cp_losses : List ℤ
  worst_mistake : Option WorstMistake
  brilliant_moves : ℕ
  neutral_moves : ℕ
  mistake_moves : ℕ
deriving DecidableEq

def emptyStage : StageStats :=
  ⟨0, 0, 0, 0, 0, [], none, 0, 0, 0⟩

/-- The `mistakes` dict, keyed by the three stage names. -/
structure GameMistakes where
  early : StageStats
  middle : StageStats
  endgame : StageStats
deriving DecidableEq

def emptyMistakes : GameMistakes :=
  ⟨emptyStage, emptyStage, emptyStage⟩

/-- String-keyed read access `mistakes[stage]` (the source only ever indexes
with the result of `_get_stage`). -/
def getStage (m : GameMistakes) (stage : String) : StageStats :=
  if stage = "early" then m.early
  else if stage = "middle" then m.middle
  else m.endgame

/-- String-keyed write access `mistakes[stage] = st`. -/
def setStage (m : GameMistakes) (stage : String) (st : StageStats) : GameMistakes :=
  if stage = "early" then { m with early := st }
  else if stage = "middle" then { m with middle := st }
  else { m with endgame := st }

/-- A parsed PGN game, abstracted to what the analysis loop observes: the
colour to move in the initial position (`chess.Board.turn` of `game.board()`,
`true` = white) and the number of plies of the mainline. -/
structure Game where
  startWhite : Bool
  plies : ℕ
deriving DecidableEq

/-- Whether the move at 0-based ply index `m` is made by the analyzed player:
`board.turn` after `m` pushes alternates starting from `startWhite`. -/
def isPlayerMove (startWhite playerIsWhite : Bool) (m : ℕ) : Bool :=
  (if m % 2 = 0 then startWhite else !startWhite) == playerIsWhite

/-- First pass of `analyze_game_mistakes`: count the analyzed player's moves. -/
def countPlayerMoves (g : Game) (playerIsWhite : Bool) : ℕ :=
  (List.range g.plies).countP (fun m => isPlayerMove g.startWhite playerIsWhite m)

/-- Lines 392-399 of the service: track the stage's worst mistake. -/
def updateWorst (st3 : StageStats) (move_number : ℕ) (cp_loss : ℤ)
    (mistake_type : Option String) : StageStats :=
  match st3.worst_mistake with
  | none =>
    { st3 with worst_mistake := some ⟨move_number, cp_loss, mistake_type.getD "mistake"⟩ }
  | some w =>
    if cp_loss > w.cp_loss then
      { st3 with worst_mistake := some ⟨move_number, cp_loss, mistake_type.getD "mistake"⟩ }
    else st3

/-- The body of lines 369-402 of the service: given both evaluations (already
re-expressed in the player's perspective), classify the move and update the
stage's counters, loss list and worst mistake. -/
def applyOutcome (st : StageStats) (move_number : ℕ)
    (current_eval new_eval : ℤ) : StageStats :=
  let cp_change := new_eval - current_eval
  let cp_loss := current_eval - new_eval
  if cp_change ≥ 100 then
    -- Brilliant move
    { st with brilliant_moves := st.brilliant_moves + 1 }
  else if cp_loss ≥ 50 then
    -- Mistake move, with the backward-compatible severity tracking
    let mistake_type := _classify_mistake cp_loss
    let st1 := { st with mistake_moves := st.mistake_moves + 1 }
    let st2 :=
      if mistake_type = some "inaccuracy" then
        { st1 with inaccuracies := st1.inaccuracies + 1 }
      else if mistake_type = some "mistake" then
        { st1 with mistakes := st1.mistakes + 1 }
      else if mistake_type = some "blunder" then
        { st1 with blunders := st1.blunders + 1 }
      else st1
    let st3 := { st2 with cp_losses := st2.cp_losses ++ [cp_loss] }
    updateWorst st3 move_number cp_loss mistake_type
  else
    -- Neutral move
    { st with neutral_moves := st.neutral_moves + 1 }

/-- State threaded through the second pass: the running `player_move_index`
and the `mistakes` dict (the ply counter is the fold's list element). -/
structure LoopState where
  player_move_index : ℕ
  mistakes : GameMistakes
deriving DecidableEq

/-- One iteration of the second pass of `analyze_game_mistakes` for the move
at 0-based ply index `m`.  `oracle k` is the value `_evaluate_position`
returns on the position reached after `k` plies. -/
def analyzeStep (oracle : ℕ → Option ℤ) (startWhite playerIsWhite : Bool)
    (moves_to_analyze : Finset ℕ) (s : LoopState) (m : ℕ) : LoopState :=
  let ply := m + 1
  let move_number := (ply + 1) / 2
  let stage := _get_stage move_number
  if isPlayerMove startWhite playerIsWhite m then
    let st0 := getStage s.mistakes stage
    let mk := setStage s.mistakes stage { st0 with total_moves := st0.total_moves + 1 }
    let should_analyze := s.player_move_index ∈ moves_to_analyze
    if should_analyze then
      match oracle m with
      | some current_eval =>
        if SKIP_EVAL_THRESHOLD < |current_eval| then
          -- Skip analysis, game already heavily decided
          ⟨s.player_move_index + 1, mk⟩
        else
          match oracle (m + 1) with
          | some new_eval_opponent =>
            let new_eval := -new_eval_opponent
            let st2 := applyOutcome (getStage mk stage) move_number current_eval new_eval
            ⟨s.player_move_index + 1, setStage mk stage st2⟩
          | none =>
            -- post-move evaluation unavailable: nothing recorded
            ⟨s.player_move_index + 1, mk⟩
      | none =>
        -- pre-move evaluation unavailable: nothing recorded
        ⟨s.player_move_index + 1, mk⟩
    else
      ⟨s.player_move_index + 1, mk⟩
  else
    -- Opponent's move: board is pushed, nothing recorded
    s

/-- Python's `str.lower()` (structurally, character by character). -/
def py_lower (s : String) : String :=
  ⟨s.data.map Char.toLower⟩

/-- `analyze_game_mistakes`.  `engineOn` models `self.enabled and
self.engine`; the PGN string is replaced by the already-parsed `Game` (the
claims quantify over games whose PGN parses and replays successfully). -/
def analyze_game_mistakes (engineOn : Bool) (g : Game) (player_color : String)
    (oracle : ℕ → Option ℤ) : GameMistakes :=
  if !engineOn then emptyMistakes
  else
    let player_is_white := py_lower player_color == "white"
    let total_player_moves := countPlayerMoves g player_is_white
    let moves_to_analyze := _select_moves_to_analyze total_player_moves
    ((List.range g.plies).foldl
      (analyzeStep oracle g.startWhite player_is_white moves_to_analyze)
      ⟨0, emptyMistakes⟩).mistakes

/-- Sum of `total_moves` across the three stages. -/
def sumTotals (m : GameMistakes) : ℕ :=
  m.early.total_moves + m.middle.total_moves + m.endgame.total_moves

/-- One step of a running maximum over `Option ℤ`. -/
def maxStep (acc : Option ℤ) (x : ℤ) : Option ℤ :=
  match acc with
  | none => some x
  | some m => some (max m x)

/-- Maximum of a list of centipawn losses (`none` on the empty list). -/
def listMax (l : List ℤ) : Option ℤ := l.foldl maxStep none

/-- The stage invariant: the recorded worst mistake is `none` exactly when
the recorded-loss list is empty, and otherwise carries its maximum. -/
def worstInv (st : StageStats) : Prop :=
  st.worst_mistake.map (fun w => w.cp_loss) = listMax st.cp_losses

def allWorstInv (m : GameMistakes) : Prop :=
  worstInv m.early ∧ worstInv m.middle ∧ worstInv m.endgame

/-- Truncation toward zero, Python's `int(float)`. -/
def py_int (q : ℚ) : ℤ :=
  if q < 0 then -⌊-q⌋ else ⌊q⌋

/-- Python's banker's rounding to the nearest integer (`round(x)`). -/
def round_half_even (q : ℚ) : ℤ :=
  let f := ⌊q⌋
  let r := q - f
  if r < 1 / 2 then f
  else if 1 / 2 < r then f + 1
  else if f % 2 = 0 then f else f + 1

/-- Python's `round(x, 1)`. -/
def py_round1 (q : ℚ) : ℚ :=
  (round_half_even (q * 10) : ℚ) / 10

/-- Insertion step of an ascending insertion sort, modelling `sorted(...)`. -/
def insertLoss (x : ℤ) : List ℤ → List ℤ
  | [] => [x]
  | y :: ys => if x ≤ y then x :: y :: ys else y :: insertLoss x ys

/-- Ascending sort of the recorded losses, modelling `sorted(cp_losses)`. -/
def sortLosses (l : List ℤ) : List ℤ := l.foldr insertLoss []

/-- Lines 630-632 of the service: `sorted_losses[int(len(sorted_losses) *
0.75)]` when that index is in range, else 300, then clamped from below by
300.  (`int(len * 0.75)` is exactly `3 * len / 4` in natural division.) -/
def percentile_threshold (cp_losses : List ℤ) : ℤ :=
  let sorted_losses := sortLosses cp_losses
  let percentile_75_idx := 3 * sorted_losses.length / 4
  max (sorted_losses.getD percentile_75_idx 300) 300

/-- One side of a game record (`game_data['white']` / `game_data['black']`,
with the `.get(..., '')` defaults applied). -/
structure PlayerInfo where
  username : String
  result : String
  termination : String
deriving DecidableEq

/-- A game record handed to the Aggregator.  `pgn = none` models a missing or
empty `pgn` string (the `if not pgn` skip); `some g` is a PGN that parses
into the abstracted game `g`. -/
structure GameData where
  white : PlayerInfo
  black : PlayerInfo
  url : String
  pgn : Option Game
deriving DecidableEq

/-- The per-stage `worst_game` record of the aggregation. -/
structure WorstGame where
  game_index : ℕ
  game_url : String
  cp_loss : ℤ
  move_number : ℕ
  type : String
deriving DecidableEq

/-- The per-stage `critical_mistake_game` record of the aggregation. -/
structure CriticalGame where
  game_index : ℕ
  game_url : Option String
  cp_loss : ℤ
  move_number : ℕ
  type : String
  result : String
  termination : String
deriving DecidableEq

/-- One per-stage entry of the `aggregated` dict. -/
structure AggStage where
  total_moves : ℕ
  inaccuracies : ℕ
  mistakes : ℕ
  blunders : ℕ
  missed_opps : ℕ
  cp_losses : List ℤ
  worst_game : Option WorstGame
  avg_cp_loss : ℚ
  critical_mistake_game : Option CriticalGame
  brilliant_moves : ℕ
  neutral_moves : ℕ
  mistake_moves : ℕ
  avg_brilliant_per_game : ℚ
  avg_neutral_per_game : ℚ
  avg_mistakes_per_game : ℚ
deriving DecidableEq

structure SampleInfo where
  total_games : ℕ
  analyzed_games : ℕ
  sample_percentage : ℚ
deriving DecidableEq

structure Aggregated where
  early : AggStage
  middle : AggStage
  endgame : AggStage
  sample_info : SampleInfo
deriving DecidableEq

def emptyAggStage : AggStage :=
  ⟨0, 0, 0, 0, 0, [], none, 0, none, 0, 0, 0, 0, 0, 0⟩

/-- `_empty_aggregation`. -/
def _empty_aggregation : Aggregated :=
  ⟨emptyAggStage, emptyAggStage, emptyAggStage, ⟨0, 0, 0⟩⟩

/-- Loss values from Chess.com: line 554 of the service. -/
def isLossResult (r : String) : Bool :=
  (["checkmated", "timeout", "resigned", "abandoned", "lose"] : List String).contains r

/-- Whether `needle` is a prefix of `haystack` (on character lists). -/
def charsPrefix : List Char → List Char → Bool
  | [], _ => true
  | _ :: _, [] => false
  | a :: as, b :: bs => a == b && charsPrefix as bs

/-- Whether `needle` occurs as a contiguous substring of `haystack`. -/
def charsContain (needle haystack : List Char) : Bool :=
  match haystack with
  | [] => needle.isEmpty
  | _ :: rest => charsPrefix needle haystack || charsContain needle rest

/-- `'resign' in termination.lower()`. -/
def containsResign (termination : String) : Bool :=
  charsContain "resign".toList (py_lower termination).toList

/-- `player_color = 'white' if white_username == username_lower else 'black'`. -/
def playerIsWhiteOf (gd : GameData) (username_lower : String) : Bool :=
  py_lower gd.white.username == username_lower

def playerResultOf (gd : GameData) (username_lower : String) : String :=
  if playerIsWhiteOf gd username_lower then gd.white.result else gd.black.result

def playerTerminationOf (gd : GameData) (username_lower : String) : String :=
  if playerIsWhiteOf gd username_lower then gd.white.termination else gd.black.termination

/-- Lines 565-575 of the service: sum the per-stage counters and extend the
loss list. -/
def mergeCounts (agg : AggStage) (stage_data : StageStats) : AggStage :=
  { agg with
    total_moves := agg.total_moves + stage_data.total_moves,
    inaccuracies := agg.inaccuracies + stage_data.inaccuracies,
    mistakes := agg.mistakes + stage_data.mistakes,
    blunders := agg.blunders + stage_data.blunders,
    missed_opps := agg.missed_opps + stage_data.missed_opps,
    cp_losses := agg.cp_losses ++ stage_data.cp_losses,
    brilliant_moves := agg.brilliant_moves + stage_data.brilliant_moves,
    neutral_moves := agg.neutral_moves + stage_data.neutral_moves,
    mistake_moves := agg.mistake_moves + stage_data.mistake_moves }

/-- Lines 577-588 of the service: track the worst game for this stage. -/
def mergeWorstGame (a1 : AggStage) (worst_mistake : WorstMistake) (idx : ℕ)
    (url : String) : AggStage :=
  match a1.worst_game with
  | none =>
    { a1 with worst_game := some ⟨idx, url, worst_mistake.cp_loss, worst_mistake.move_number, worst_mistake.type⟩ }
  | some wg =>
    if worst_mistake.cp_loss > wg.cp_loss then
      { a1 with worst_game := some ⟨idx, url, worst_mistake.cp_loss, worst_mistake.move_number, worst_mistake.type⟩ }
    else a1

/-- Lines 590-611 of the service: track the critical mistake game (PRD v2.1:
lost by resignation only). -/
def mergeCritical (a2 : AggStage) (worst_mistake : WorstMistake) (idx : ℕ)
    (url : String) (player_is_white : Bool) (player_result termination : String) :
    AggStage :=
  let cp_loss := worst_mistake.cp_loss
  let update :=
    match a2.critical_mistake_game with
    | none => true
    | some cg => cp_loss > cg.cp_loss
  if update then
    let move_num := worst_mistake.move_number
    let ply := if player_is_white then move_num * 2 - 1 else move_num * 2
    let game_url_with_move :=
      if url = "" then none else some (url ++ "#" ++ toString ply)
    { a2 with critical_mistake_game := some ⟨idx, game_url_with_move, cp_loss, move_num, worst_mistake.type, player_result, termination⟩ }
  else a2

/-- Lines 561-611 of the service: merge one game's stage outcome into the
running aggregation for that stage. -/
def mergeStage (agg : AggStage) (stage_data : StageStats) (idx : ℕ) (url : String)
    (player_is_white : Bool) (player_result termination : String)
    (is_qualifying_game : Bool) : AggStage :=
  let a1 := mergeCounts agg stage_data
  match stage_data.worst_mistake with
  | none => a1
  | some worst_mistake =>
    let a2 := mergeWorstGame a1 worst_mistake idx url
    if is_qualifying_game then
      mergeCritical a2 worst_mistake idx url player_is_white player_result termination
    else a2

/-- The body of the per-game loop of `aggregate_mistake_analysis` (lines
522-619).  `oracle idx` is the evaluation behaviour on the positions of the
`idx`-th selected game; a game with missing PGN is skipped (`continue`). -/
def aggregateStep (username_lower : String) (oracle : ℕ → ℕ → Option ℤ)
    (acc : Aggregated) (p : ℕ × GameData) : Aggregated :=
  let idx := p.1
  let game_data := p.2
  match game_data.pgn with
  | none => acc
  | some g =>
    let player_is_white := playerIsWhiteOf game_data username_lower
    let player_color := if player_is_white then "white" else "black"
    let player_result := playerResultOf game_data username_lower
    let termination := playerTerminationOf game_data username_lower
    let game_mistakes := analyze_game_mistakes true g player_color (oracle idx)
    let is_loss := isLossResult player_result
    let is_qualifying_game :=
      is_loss && (if termination = "" then false else containsResign termination)
    { acc with
      early := mergeStage acc.early game_mistakes.early idx game_data.url
        player_is_white player_result termination is_qualifying_game,
      middle := mergeStage acc.middle game_mistakes.middle idx game_data.url
        player_is_white player_result termination is_qualifying_game,
      endgame := mergeStage acc.endgame game_mistakes.endgame idx game_data.url
        player_is_white player_result termination is_qualifying_game }

/-- Lines 621-652 of the service: per-stage averages and the significance
filter for the critical mistake. -/
def finalizeStage (agg : AggStage) (analyzed_games_count : ℕ) : AggStage :=
  let a1 :=
    if agg.cp_losses ≠ [] then
      let a := { agg with
        avg_cp_loss := py_round1 ((agg.cp_losses.sum : ℚ) / (agg.cp_losses.length : ℚ)) }
      let threshold := percentile_threshold agg.cp_losses
      match a.critical_mistake_game with
      | none => a
      | some critical_game =>
        if critical_game.cp_loss < threshold then
          { a with critical_mistake_game := none }
        else a
    else { agg with avg_cp_loss := 0 }
  if 0 < analyzed_games_count then
    { a1 with
      avg_brilliant_per_game :=
        py_round1 ((a1.brilliant_moves : ℚ) / (analyzed_games_count : ℚ)),
      avg_neutral_per_game :=
        py_round1 ((a1.neutral_moves : ℚ) / (analyzed_games_count : ℚ)),
      avg_mistakes_per_game :=
        py_round1 ((a1.mistake_moves : ℚ) / (analyzed_games_count : ℚ)) }
  else a1

/-- `_select_games_for_analysis`: time-distributed sampling.  `int(i *
interval)` with the float `interval = total_games / max_games` is modelled
exactly as `i * total_games / max_games` in natural division. -/
def _select_games_for_analysis (games_data : List GameData) (max_games : ℕ) :
    List GameData :=
  if games_data.isEmpty then []
  else if games_data.length ≤ max_games then games_data
  else
    (List.range max_games).filterMap (fun i =>
      let index := i * games_data.length / max_games
      if h : index < games_data.length then some (games_data.get ⟨index, h⟩)
      else none)

/-- Lines 505-510 of the service: cap the analyzed games at
`MAX_ANALYSIS_GAMES`. -/
def gamesToAnalyze (games_data : List GameData) : List GameData :=
  if games_data.length ≤ MAX_ANALYSIS_GAMES then games_data
  else _select_games_for_analysis games_data MAX_ANALYSIS_GAMES

/-- `aggregate_mistake_analysis`.  `enabled` is `self.enabled`;
`engine_started` tells whether `_start_engine` succeeded; `oracle idx k` is
the evaluation behaviour on the position after `k` plies of the `idx`-th
selected game. -/
def aggregate_mistake_analysis (enabled engine_started : Bool)
    (games_data : List GameData) (username : String)
    (oracle : ℕ → ℕ → Option ℤ) : Aggregated :=
  if !enabled then _empty_aggregation
  else if !engine_started then _empty_aggregation
  else
    let username_lower := py_lower username
    let games_to_analyze := gamesToAnalyze games_data
    let init : Aggregated :=
      { early := emptyAggStage, middle := emptyAggStage, endgame := emptyAggStage,
        sample_info :=
          { total_games := games_data.length,
            analyzed_games := games_to_analyze.length,
            sample_percentage :=
              if 0 < games_data.length then
                py_round1 ((games_to_analyze.length : ℚ) / (games_data.length : ℚ) * 100)
              else 0 } }
    let looped := games_to_analyze.enum.foldl (aggregateStep username_lower oracle) init
    { looped with
      early := finalizeStage looped.early games_to_analyze.length,
      middle := finalizeStage looped.middle games_to_analyze.length,
      endgame := finalizeStage looped.endgame games_to_analyze.length }

def defaultGameData : GameData :=
  ⟨⟨"", "", ""⟩, ⟨"", "", ""⟩, "", none⟩

/-- A game that analyzes normally: the player (white) makes one move, losing
100 centipawns on it. -/
def gGood : GameData :=
  ⟨⟨"alice", "win", ""⟩, ⟨"bob", "resigned", "alice won by resignation"⟩, "",
    some ⟨true, 2⟩⟩

/-- A selected game whose PGN is missing: parsing fails and the game is
skipped by the `continue` at line 542 of the service. -/
def gBad : GameData :=
  ⟨⟨"alice", "win", ""⟩, ⟨"bob", "", ""⟩, "", none⟩

def c6oracle : ℕ → ℕ → Option ℤ :=
  fun _ k => if k = 0 then some 100 else some 0

/-- String-keyed access to the three per-stage entries of the aggregation. -/
def getAggStage (a : Aggregated) (stage : String) : AggStage :=
  if stage = "early" then a.early
  else if stage = "middle" then a.middle
  else a.endgame

/-- Invariant carried through the per-game loop: a recorded critical mistake
always stems from a selected game whose player result is a loss and whose
termination mentions resignation, and its stage has a non-empty loss list. -/
def CriticalInv (sel : List GameData) (ul : String) (agg : AggStage) : Prop :=
  ∀ cg, agg.critical_mistake_game = some cg →
    isLossResult cg.result = true ∧
    containsResign cg.termination = true ∧
    agg.cp_losses ≠ [] ∧
    ∃ gd ∈ sel, playerResultOf gd ul = cg.result ∧ playerTerminationOf gd ul = cg.termination

/-- A game lost by resignation with a single analyzed move losing 350
centipawns, used to witness C4. -/
def g4 : GameData :=
  ⟨⟨"carol", "resigned", "carol resigned"⟩, ⟨"dave", "win", ""⟩, "", some ⟨true, 2⟩⟩

def c4oracle : ℕ → ℕ → Option ℤ :=
  fun _ k => if k = 0 then some 350 else some 0

def cg4 : CriticalGame :=
  ⟨0, none, 350, 1, "blunder", "resigned", "carol resigned"⟩

def TASK_CLEANUP_TTL : ℚ := 3600

/-- The `progress` sub-dict of a live task. -/
structure TaskProgress where
  current : ℤ
  total : ℤ
  percentage : ℤ
deriving DecidableEq

/-- A record of `_background_tasks`. -/
structure LiveTask where
  status : String
  progress : TaskProgress
  created_at : ℚ
  updated_at : Option ℚ
  metadata : List (String × String)
deriving DecidableEq

/-- A record of `_task_results`.  The completion payload (`result: Dict`) is
modelled opaquely as a string token in `data`. -/
structure TaskResult where
  status : String
  data : Option String
  error : Option String
  completed_at : ℚ
deriving DecidableEq

/-- The two module-level in-memory maps. -/
structure TaskState where
  background_tasks : String → Option LiveTask
  task_results : String → Option TaskResult

/-- What `get_task_status` returns (when the task is found). -/
inductive TaskStatus where
  | processing (progress : TaskProgress) (estimated_remaining : String)
      (metadata : List (String × String))
  | terminal (record : TaskResult)
deriving DecidableEq

/-- `cleanup_old_tasks`: delete terminal records older than the TTL.  (The
source also returns the count of deleted records, used only for logging.) -/
def cleanup_old_tasks (st : TaskState) (now : ℚ) : TaskState :=
  { st with task_results := fun task_id =>
      match st.task_results task_id with
      | none => none
      | some task =>
        if now - task.completed_at > TASK_CLEANUP_TTL then none else some task }

/-- `create_task`. -/
def create_task (st : TaskState) (task_id : String) (total_items : ℤ)
    (metadata : List (String × String)) (now : ℚ) : TaskState :=
  { st with background_tasks := fun id =>
      if id = task_id then
        some ⟨"processing", ⟨0, total_items, 0⟩, now, none, metadata⟩
      else st.background_tasks id }

/-- `update_task_progress` (a no-op when the id is not live). -/
def update_task_progress (st : TaskState) (task_id : String) (current : ℤ)
    (status : String) (now : ℚ) : TaskState :=
  { st with background_tasks := fun id =>
      if id = task_id then
        match st.background_tasks task_id with
        | none => none
        | some task =>
          let total := task.progress.total
          let percentage :=
            if total > 0 then py_int ((current : ℚ) / (total : ℚ) * 100) else 0
          some { task with
            progress := ⟨current, total, percentage⟩,
            status := status,
            updated_at := some now }
      else st.background_tasks id }

/-- `complete_task`. -/
def complete_task (st : TaskState) (task_id : String) (result : String)
    (now : ℚ) : TaskState :=
  { background_tasks := fun id => if id = task_id then none else st.background_tasks id,
    task_results := fun id =>
      if id = task_id then some ⟨"completed", some result, none, now⟩
      else st.task_results id }

/-- `fail_task`. -/
def fail_task (st : TaskState) (task_id : String) (error : String)
    (now : ℚ) : TaskState :=
  { background_tasks := fun id => if id = task_id then none else st.background_tasks id,
    task_results := fun id =>
      if id = task_id then some ⟨"error", none, some error, now⟩
      else st.task_results id }

/-- `get_task_status`. -/
def get_task_status (st : TaskState) (task_id : String) : Option TaskStatus :=
  match st.background_tasks task_id with
  | some task =>
    let remaining_items := task.progress.total - task.progress.current
    let estimated_seconds := (remaining_items : ℚ) * (5 / 2)
    some (TaskStatus.processing task.progress
      (toString (py_int estimated_seconds) ++ " seconds") task.metadata)
  | none =>
    match st.task_results task_id with
    | some record => some (TaskStatus.terminal record)
    | none => none

/-- The operations of the task manager, for reasoning about op sequences. -/
inductive TaskOp where
  | create (task_id : String) (total_items : ℤ)
      (metadata : List (String × String)) (now : ℚ)
  | update (task_id : String) (current : ℤ) (status : String) (now : ℚ)
  | complete (task_id : String) (result : String) (now : ℚ)
  | fail (task_id : String) (error : String) (now : ℚ)
  | cleanup (now : ℚ)

/-- The task id an operation touches, if any. -/
def TaskOp.targets : TaskOp → Option String
  | .create task_id _ _ _ => some task_id
  | .update task_id _ _ _ => some task_id
  | .complete task_id _ _ => some task_id
  | .fail task_id _ _ => some task_id
  | .cleanup _ => none

def applyOp (st : TaskState) : TaskOp → TaskState
  | .create task_id t md now => create_task st task_id t md now
  | .update task_id c s now => update_task_progress st task_id c s now
  | .complete task_id r now => complete_task st task_id r now
  | .fail task_id e now => fail_task st task_id e now
  | .cleanup now => cleanup_old_tasks st now

/-- The state at module load: both maps empty. -/
def initialTaskState : TaskState := ⟨fun _ => none, fun _ => none⟩

def c9record : TaskResult := ⟨"completed", some "r", none, 0⟩

/-- A state with one terminal record (completed at time 0) and nothing live. -/
def c9state : TaskState :=
  ⟨fun _ => none, fun id => if id = "a" then some c9record else none⟩

/-! ## Theorems -/

lemma div5_strict {a b : ℕ} (h : a + 5 ≤ b) : a / 5 < b / 5 := by omega

lemma middle_fun_strictMono {ee mr : ℕ} (hmr : 5 ≤ mr) :
    StrictMono (fun i => ee + i * mr / 5) := by
  intro i j hij
  show ee + i * mr / 5 < ee + j * mr / 5
  have h1 : (i + 1) * mr ≤ j * mr := Nat.mul_le_mul_right mr hij
  have h2 : i * mr + 5 ≤ j * mr := by
    have h3 : i * mr + mr = (i + 1) * mr := by ring
    omega
  have := div5_strict h2
  omega

lemma middle_fun_ub {n : ℕ} (h : 15 < n) :
    ∀ i < 5, n / 3 + i * (2 * n / 3 - n / 3) / 5 < 2 * n / 3 := by
  intro i hi
  have hmr : 5 ≤ 2 * n / 3 - n / 3 := by omega
  have h1 : i * (2 * n / 3 - n / 3) < (2 * n / 3 - n / 3) * 5 := by
    calc i * (2 * n / 3 - n / 3) ≤ 4 * (2 * n / 3 - n / 3) :=
          Nat.mul_le_mul_right _ (by omega)
    _ < (2 * n / 3 - n / 3) * 5 := by omega
  have h2 : i * (2 * n / 3 - n / 3) / 5 < 2 * n / 3 - n / 3 :=
    (Nat.div_lt_iff_lt_mul (by norm_num)).2 h1
  omega

lemma select_moves_large_card {n : ℕ} (h : 15 < n) :
    (Finset.range 5 ∪
      (Finset.range 5).image (fun i => n / 3 + i * (2 * n / 3 - n / 3) / 5) ∪
      Finset.Ico (n - 5) n).card = 15 := by
  have hmr : 5 ≤ 2 * n / 3 - n / 3 := by omega
  have hub := middle_fun_ub h
  have hd1 : Disjoint (Finset.range 5)
      ((Finset.range 5).image (fun i => n / 3 + i * (2 * n / 3 - n / 3) / 5)) := by
    rw [Finset.disjoint_left]
    intro x hx hx'
    rw [Finset.mem_range] at hx
    rcases Finset.mem_image.1 hx' with ⟨i, _, rfl⟩
    omega
  have hd2 : Disjoint (Finset.range 5 ∪
      (Finset.range 5).image (fun i => n / 3 + i * (2 * n / 3 - n / 3) / 5))
      (Finset.Ico (n - 5) n) := by
    rw [Finset.disjoint_left]
    intro x hx hx'
    rw [Finset.mem_Ico] at hx'
    rcases Finset.mem_union.1 hx with hx | hx
    · rw [Finset.mem_range] at hx; omega
    · rcases Finset.mem_image.1 hx with ⟨i, hi, rfl⟩
      have := hub i (Finset.mem_range.1 hi)
      omega
  rw [Finset.card_union_of_disjoint hd2, Finset.card_union_of_disjoint hd1,
    Finset.card_image_of_injective _ (middle_fun_strictMono hmr).injective,
    Finset.card_range, Nat.card_Ico]
  omega

lemma select_moves_large_subset {n : ℕ} (h : 15 < n) :
    Finset.range 5 ∪
      (Finset.range 5).image (fun i => n / 3 + i * (2 * n / 3 - n / 3) / 5) ∪
      Finset.Ico (n - 5) n ⊆ Finset.range n := by
  have hub := middle_fun_ub h
  intro x hx
  rw [Finset.mem_range]
  rcases Finset.mem_union.1 hx with hx | hx
  · rcases Finset.mem_union.1 hx with hx | hx
    · rw [Finset.mem_range] at hx; omega
    · rcases Finset.mem_image.1 hx with ⟨i, hi, rfl⟩
      have := hub i (Finset.mem_range.1 hi)
      omega
  · rw [Finset.mem_Ico] at hx; omega

lemma select_moves_eq_of_large {n : ℕ} (h : 15 < n) :
    _select_moves_to_analyze n =
      Finset.range 5 ∪
        (Finset.range 5).image (fun i => n / 3 + i * (2 * n / 3 - n / 3) / 5) ∪
        Finset.Ico (n - 5) n := by
  have h3 : 5 ≤ n / 3 := by omega
  have h6 : 5 ≤ n - 2 * n / 3 := by omega
  have hmr : 5 ≤ 2 * n / 3 - n / 3 := by omega
  simp only [_select_moves_to_analyze, MOVES_PER_STAGE, MAX_MOVES_PER_GAME]
  rw [if_neg (by omega)]
  rw [min_eq_left h3, min_eq_left h6, min_eq_left hmr,
    if_pos (show (0 : ℕ) < 5 ∧ 0 < 2 * n / 3 - n / 3 from ⟨by norm_num, by omega⟩)]
  rw [if_neg (by rw [select_moves_large_card h]; omega)]

/-- C1: for `total_player_moves ≤ 15` the sampler returns exactly
`range(total_player_moves)`; for `total_player_moves > 15` it returns a set
of exactly 15 distinct indices, each in `[0, total_player_moves)`. -/
theorem C1_select_moves_to_analyze (n : ℕ) :
    (n ≤ 15 → _select_moves_to_analyze n = Finset.range n) ∧
    (15 < n → (_select_moves_to_analyze n).card = 15 ∧
      _select_moves_to_analyze n ⊆ Finset.range n) := by
  constructor
  · intro h
    rw [_select_moves_to_analyze, if_pos (by simpa [MAX_MOVES_PER_GAME] using h)]
  · intro h
    rw [select_moves_eq_of_large h]
    exact ⟨select_moves_large_card h, select_moves_large_subset h⟩

/-- Witness for C1 at the concrete inputs 10 and 40. -/
theorem C1_select_moves_to_analyze_witness :
    _select_moves_to_analyze 10 = Finset.range 10 ∧
    ((_select_moves_to_analyze 40).card = 15 ∧
      _select_moves_to_analyze 40 ⊆ Finset.range 40) :=
  ⟨(C1_select_moves_to_analyze 10).1 (by norm_num),
    (C1_select_moves_to_analyze 40).2 (by norm_num)⟩

lemma classify_blunder {l : ℤ} (h : 200 ≤ l) :
    _classify_mistake l = some "blunder" := by
  rw [_classify_mistake, if_pos (by simpa [BLUNDER_THRESHOLD] using h)]

lemma classify_mistake_eq {l : ℤ} (h1 : 100 ≤ l) (h2 : l < 200) :
    _classify_mistake l = some "mistake" := by
  rw [_classify_mistake, if_neg (by simp [BLUNDER_THRESHOLD]; omega),
    if_pos (by simpa [MISTAKE_THRESHOLD] using h1)]

lemma classify_inaccuracy {l : ℤ} (h1 : 50 ≤ l) (h2 : l < 100) :
    _classify_mistake l = some "inaccuracy" := by
  rw [_classify_mistake, if_neg (by simp [BLUNDER_THRESHOLD]; omega),
    if_neg (by simp [MISTAKE_THRESHOLD]; omega),
    if_pos (by simpa [INACCURACY_THRESHOLD] using h1)]

lemma applyOutcome_brilliant (st : StageStats) (mn : ℕ) (pre post : ℤ)
    (h1 : 100 ≤ post - pre) :
    applyOutcome st mn pre post = { st with brilliant_moves := st.brilliant_moves + 1 } := by
  simp only [applyOutcome]
  rw [if_pos (by simpa [ge_iff_le] using h1)]

lemma applyOutcome_neutral (st : StageStats) (mn : ℕ) (pre post : ℤ)
    (h1 : ¬ 100 ≤ post - pre) (h2 : ¬ 50 ≤ pre - post) :
    applyOutcome st mn pre post = { st with neutral_moves := st.neutral_moves + 1 } := by
  simp only [applyOutcome]
  rw [if_neg (by simpa [ge_iff_le] using h1), if_neg (by simpa [ge_iff_le] using h2)]

lemma applyOutcome_mistake (st : StageStats) (mn : ℕ) (pre post : ℤ)
    (h1 : ¬ 100 ≤ post - pre) (h2 : 50 ≤ pre - post) :
    ∃ w, applyOutcome st mn pre post =
      { st with
        blunders := st.blunders + (if 200 ≤ pre - post then 1 else 0),
        mistakes := st.mistakes + (if 100 ≤ pre - post ∧ pre - post < 200 then 1 else 0),
        inaccuracies := st.inaccuracies + (if 50 ≤ pre - post ∧ pre - post < 100 then 1 else 0),
        mistake_moves := st.mistake_moves + 1,
        cp_losses := st.cp_losses ++ [pre - post],
        worst_mistake := w } := by
  obtain ⟨tm, ia, mi, bl, mo, cps, wm, bm, nm, mm⟩ := st
  simp only [applyOutcome]
  rw [if_neg (by simpa [ge_iff_le] using h1), if_pos (by simpa [ge_iff_le] using h2)]
  by_cases h3 : 200 ≤ pre - post
  · rw [classify_blunder h3]
    rw [if_neg (by simp), if_neg (by simp), if_pos rfl,
      if_pos h3,
      if_neg (show ¬ (100 ≤ pre - post ∧ pre - post < 200) by omega),
      if_neg (show ¬ (50 ≤ pre - post ∧ pre - post < 100) by omega)]
    cases wm <;> simp only [updateWorst]
    · exact ⟨_, rfl⟩
    · split_ifs <;> exact ⟨_, rfl⟩
  · by_cases h4 : 100 ≤ pre - post
    · rw [classify_mistake_eq h4 (by omega)]
      rw [if_neg (by simp), if_pos rfl,
        if_neg h3,
        if_pos (show 100 ≤ pre - post ∧ pre - post < 200 from ⟨h4, by omega⟩),
        if_neg (show ¬ (50 ≤ pre - post ∧ pre - post < 100) by omega)]
      cases wm <;> simp only [updateWorst]
      · exact ⟨_, rfl⟩
      · split_ifs <;> exact ⟨_, rfl⟩
    · rw [classify_inaccuracy h2 (by omega)]
      rw [if_pos rfl, if_neg h3,
        if_neg (show ¬ (100 ≤ pre - post ∧ pre - post < 200) by omega),
        if_pos (show 50 ≤ pre - post ∧ pre - post < 100 from ⟨h2, by omega⟩)]
      cases wm <;> simp only [updateWorst]
      · exact ⟨_, rfl⟩
      · split_ifs <;> exact ⟨_, rfl⟩

/-- C3: for an analyzed player move with both evaluations (in the player's
perspective), with `cp_loss = pre - post` and `cp_change = -cp_loss`, the
recorded severity is blunder exactly when `cp_loss ≥ 200` (so in particular
every `cp_loss ≥ 300` is recorded as a blunder), mistake exactly when
`100 ≤ cp_loss < 200`, inaccuracy exactly when `50 ≤ cp_loss < 100`, and
nothing otherwise; independently the simplified class is brilliant exactly
when `cp_change ≥ 100`, simplified-mistake exactly when `cp_loss ≥ 50`, and
neutral otherwise.  Stated as counter equations on the recording step
`applyOutcome` (lines 369-402 of the service), which each sampled,
non-skipped player move with both evaluations passes through. -/
theorem C3_mistake_classification (st : StageStats) (mn : ℕ) (pre post : ℤ) :
    (applyOutcome st mn pre post).blunders =
      st.blunders + (if 200 ≤ pre - post then 1 else 0) ∧
    (applyOutcome st mn pre post).mistakes =
      st.mistakes + (if 100 ≤ pre - post ∧ pre - post < 200 then 1 else 0) ∧
    (applyOutcome st mn pre post).inaccuracies =
      st.inaccuracies + (if 50 ≤ pre - post ∧ pre - post < 100 then 1 else 0) ∧
    (applyOutcome st mn pre post).brilliant_moves =
      st.brilliant_moves + (if 100 ≤ -(pre - post) then 1 else 0) ∧
    (applyOutcome st mn pre post).mistake_moves =
      st.mistake_moves + (if 50 ≤ pre - post then 1 else 0) ∧
    (applyOutcome st mn pre post).neutral_moves =
      st.neutral_moves + (if -(pre - post) < 100 ∧ pre - post < 50 then 1 else 0) := by
  by_cases h1 : 100 ≤ post - pre
  · rw [applyOutcome_brilliant st mn pre post h1]
    refine ⟨?_, ?_, ?_, ?_, ?_, ?_⟩ <;> dsimp only <;> split_ifs <;> omega
  · by_cases h2 : 50 ≤ pre - post
    · obtain ⟨w, hw⟩ := applyOutcome_mistake st mn pre post h1 h2
      rw [hw]
      refine ⟨?_, ?_, ?_, ?_, ?_, ?_⟩ <;> dsimp only <;> split_ifs <;> omega
    · rw [applyOutcome_neutral st mn pre post h1 h2]
      refine ⟨?_, ?_, ?_, ?_, ?_, ?_⟩ <;> dsimp only <;> split_ifs <;> omega

lemma get_stage_cases (mn : ℕ) :
    _get_stage mn = "early" ∨ _get_stage mn = "middle" ∨ _get_stage mn = "endgame" := by
  rw [_get_stage]
  split_ifs <;> simp

lemma getStage_setStage (m : GameMistakes) (stage : String) (st : StageStats) :
    getStage (setStage m stage st) stage = st := by
  rw [getStage, setStage]
  split_ifs <;> simp_all [getStage, setStage]

lemma sumTotals_setStage (m : GameMistakes) (stage : String) (st : StageStats)
    (hstage : stage = "early" ∨ stage = "middle" ∨ stage = "endgame") :
    (getStage m stage).total_moves + sumTotals (setStage m stage st) =
      st.total_moves + sumTotals m := by
  rcases hstage with h | h | h <;> subst h <;>
    simp [getStage, setStage, sumTotals] <;> omega

lemma applyOutcome_total_moves (st : StageStats) (mn : ℕ) (pre post : ℤ) :
    (applyOutcome st mn pre post).total_moves = st.total_moves := by
  by_cases h1 : 100 ≤ post - pre
  · rw [applyOutcome_brilliant st mn pre post h1]
  · by_cases h2 : 50 ≤ pre - post
    · obtain ⟨w, hw⟩ := applyOutcome_mistake st mn pre post h1 h2
      rw [hw]
    · rw [applyOutcome_neutral st mn pre post h1 h2]

lemma sumTotals_setStage_inc (m : GameMistakes) (stage : String)
    (hstage : stage = "early" ∨ stage = "middle" ∨ stage = "endgame") :
    sumTotals (setStage m stage
      { getStage m stage with total_moves := (getStage m stage).total_moves + 1 }) =
      sumTotals m + 1 := by
  rcases hstage with h | h | h <;> subst h <;>
    simp [getStage, setStage, sumTotals] <;> omega

lemma sumTotals_setStage_applyOutcome (m : GameMistakes) (stage : String)
    (hstage : stage = "early" ∨ stage = "middle" ∨ stage = "endgame")
    (mn : ℕ) (pre post : ℤ) :
    sumTotals (setStage m stage (applyOutcome (getStage m stage) mn pre post)) =
      sumTotals m := by
  have h := sumTotals_setStage m stage (applyOutcome (getStage m stage) mn pre post) hstage
  rw [applyOutcome_total_moves] at h
  omega

lemma analyzeStep_sumTotals (oracle : ℕ → Option ℤ) (sw piw : Bool)
    (ta : Finset ℕ) (s : LoopState) (m : ℕ) :
    sumTotals (analyzeStep oracle sw piw ta s m).mistakes =
      sumTotals s.mistakes + (if isPlayerMove sw piw m then 1 else 0) := by
  rw [analyzeStep]
  have hstage := get_stage_cases ((m + 1 + 1) / 2)
  by_cases hp : isPlayerMove sw piw m
  · rw [if_pos hp, if_pos hp]
    dsimp only
    by_cases hsa : s.player_move_index ∈ ta
    · rw [if_pos hsa]
      cases hm : oracle m with
      | none =>
        dsimp only
        rw [sumTotals_setStage_inc _ _ hstage]
      | some current_eval =>
        dsimp only
        by_cases hskip : SKIP_EVAL_THRESHOLD < |current_eval|
        · rw [if_pos hskip]
          dsimp only
          rw [sumTotals_setStage_inc _ _ hstage]
        · rw [if_neg hskip]
          cases hm2 : oracle (m + 1) with
          | none =>
            dsimp only
            rw [sumTotals_setStage_inc _ _ hstage]
          | some neo =>
            dsimp only
            rw [sumTotals_setStage_applyOutcome _ _ hstage,
              sumTotals_setStage_inc _ _ hstage]
    · rw [if_neg hsa]
      dsimp only
      rw [sumTotals_setStage_inc _ _ hstage]
  · rw [if_neg hp, if_neg hp]
    simp

lemma foldl_sumTotals (oracle : ℕ → Option ℤ) (sw piw : Bool) (ta : Finset ℕ)
    (l : List ℕ) (s : LoopState) :
    sumTotals ((l.foldl (analyzeStep oracle sw piw ta) s)).mistakes =
      sumTotals s.mistakes + l.countP (fun m => isPlayerMove sw piw m) := by
  induction l generalizing s with
  | nil => simp
  | cons a l ih =>
    rw [List.foldl_cons, ih, List.countP_cons, analyzeStep_sumTotals]
    by_cases hp : isPlayerMove sw piw a
    · simp only [if_pos hp, hp, if_true]
      omega
    · simp only [if_neg hp, hp, if_false]
      omega

/-- C2: for every game that parses and replays (and any oracle behaviour and
any sampling outcome), the stage `total_moves` of `analyze_game_mistakes`
sum to the number of moves the analyzed player made in the game. -/
theorem C2_stage_totals_partition (g : Game) (player_color : String)
    (oracle : ℕ → Option ℤ) :
    sumTotals (analyze_game_mistakes true g player_color oracle) =
      countPlayerMoves g (py_lower player_color == "white") := by
  rw [analyze_game_mistakes]
  simp only [Bool.not_true, Bool.false_eq_true, if_false, ite_false]
  rw [foldl_sumTotals, countPlayerMoves]
  simp [sumTotals, emptyMistakes, emptyStage]

lemma listMax_concat (l : List ℤ) (x : ℤ) :
    listMax (l ++ [x]) = maxStep (listMax l) x := by
  simp [listMax, List.foldl_append]

lemma worstInv_getStage (m : GameMistakes) (stage : String) (h : allWorstInv m) :
    worstInv (getStage m stage) := by
  rw [getStage]
  split_ifs
  · exact h.1
  · exact h.2.1
  · exact h.2.2

lemma allWorstInv_setStage (m : GameMistakes) (stage : String) (st : StageStats)
    (hm : allWorstInv m) (hst : worstInv st) : allWorstInv (setStage m stage st) := by
  rw [setStage]
  split_ifs
  · exact ⟨hst, hm.2.1, hm.2.2⟩
  · exact ⟨hm.1, hst, hm.2.2⟩
  · exact ⟨hm.1, hm.2.1, hst⟩

lemma worstInv_total_inc (st : StageStats) (h : worstInv st) :
    worstInv { st with total_moves := st.total_moves + 1 } := h

lemma applyOutcome_worstInv (st : StageStats) (mn : ℕ) (pre post : ℤ)
    (hInv : worstInv st) : worstInv (applyOutcome st mn pre post) := by
  by_cases h1 : 100 ≤ post - pre
  · rw [applyOutcome_brilliant st mn pre post h1]
    exact hInv
  · by_cases h2 : 50 ≤ pre - post
    · obtain ⟨tm, ia, mi, bl, mo, cps, wm, bm, nm, mm⟩ := st
      rw [worstInv] at hInv
      simp only [applyOutcome]
      rw [if_neg (by simpa [ge_iff_le] using h1), if_pos (by simpa [ge_iff_le] using h2)]
      split_ifs <;>
      · cases wm with
        | none =>
          simp only [Option.map_none'] at hInv
          rw [worstInv, updateWorst]
          rw [listMax_concat, ← hInv]
          rfl
        | some w =>
          simp only [Option.map_some'] at hInv
          rw [worstInv, updateWorst]
          dsimp only
          split_ifs with hgt
          · rw [listMax_concat, ← hInv]
            simp only [Option.map_some', maxStep]
            rw [max_eq_right (le_of_lt hgt)]
          · rw [listMax_concat, ← hInv]
            simp only [Option.map_some', maxStep]
            rw [max_eq_left (le_of_not_lt hgt)]
    · rw [applyOutcome_neutral st mn pre post h1 h2]
      exact hInv

lemma analyzeStep_allWorstInv (oracle : ℕ → Option ℤ) (sw piw : Bool)
    (ta : Finset ℕ) (s : LoopState) (m : ℕ) (h : allWorstInv s.mistakes) :
    allWorstInv (analyzeStep oracle sw piw ta s m).mistakes := by
  rw [analyzeStep]
  have hmk : allWorstInv (setStage s.mistakes (_get_stage ((m + 1 + 1) / 2))
      { getStage s.mistakes (_get_stage ((m + 1 + 1) / 2)) with
        total_moves := (getStage s.mistakes (_get_stage ((m + 1 + 1) / 2))).total_moves + 1 }) :=
    allWorstInv_setStage _ _ _ h
      (worstInv_total_inc _ (worstInv_getStage _ _ h))
  by_cases hp : isPlayerMove sw piw m
  · rw [if_pos hp]
    dsimp only
    by_cases hsa : s.player_move_index ∈ ta
    · rw [if_pos hsa]
      cases hm : oracle m with
      | none => exact hmk
      | some current_eval =>
        dsimp only
        by_cases hskip : SKIP_EVAL_THRESHOLD < |current_eval|
        · rw [if_pos hskip]
          exact hmk
        · rw [if_neg hskip]
          cases hm2 : oracle (m + 1) with
          | none => exact hmk
          | some neo =>
            dsimp only
            exact allWorstInv_setStage _ _ _ hmk
              (applyOutcome_worstInv _ _ _ _ (worstInv_getStage _ _ hmk))
    · rw [if_neg hsa]
      exact hmk
  · rw [if_neg hp]
    exact h

lemma foldl_allWorstInv (oracle : ℕ → Option ℤ) (sw piw : Bool) (ta : Finset ℕ)
    (l : List ℕ) (s : LoopState) (h : allWorstInv s.mistakes) :
    allWorstInv ((l.foldl (analyzeStep oracle sw piw ta) s)).mistakes := by
  induction l generalizing s with
  | nil => exact h
  | cons a l ih =>
    rw [List.foldl_cons]
    exact ih _ (analyzeStep_allWorstInv oracle sw piw ta s a h)

/-- The per-game analysis maintains the worst-mistake/max-loss invariant in
every stage.  Shared helper for the C10 and C4 theorems. -/
lemma analyze_allWorstInv (engineOn : Bool) (g : Game) (player_color : String)
    (oracle : ℕ → Option ℤ) :
    allWorstInv (analyze_game_mistakes engineOn g player_color oracle) := by
  rw [analyze_game_mistakes]
  split_ifs
  · exact ⟨rfl, rfl, rfl⟩
  · exact foldl_allWorstInv _ _ _ _ _ _ ⟨rfl, rfl, rfl⟩

lemma worstInv_some_ne_nil (st : StageStats) (hInv : worstInv st)
    (w : WorstMistake) (hw : st.worst_mistake = some w) : st.cp_losses ≠ [] := by
  intro hnil
  rw [worstInv, hw, hnil] at hInv
  simp [listMax] at hInv

/-- C10: in the output of `analyze_game_mistakes`, each stage's
`worst_mistake` is `none` exactly when that stage's `cp_losses` list is
empty (both sides of the stated equation are then `none`), and otherwise its
`cp_loss` is the maximum element of the stage's `cp_losses` list. -/
theorem C10_worst_mistake_is_max (g : Game) (player_color : String)
    (oracle : ℕ → Option ℤ) :
    ((analyze_game_mistakes true g player_color oracle).early.worst_mistake.map
        (fun w => w.cp_loss) =
      listMax (analyze_game_mistakes true g player_color oracle).early.cp_losses) ∧
    ((analyze_game_mistakes true g player_color oracle).middle.worst_mistake.map
        (fun w => w.cp_loss) =
      listMax (analyze_game_mistakes true g player_color oracle).middle.cp_losses) ∧
    ((analyze_game_mistakes true g player_color oracle).endgame.worst_mistake.map
        (fun w => w.cp_loss) =
      listMax (analyze_game_mistakes true g player_color oracle).endgame.cp_losses) :=
  analyze_allWorstInv true g player_color oracle

lemma filterMap_eq_map_of_forall {α β : Type} {f : α → Option β} {g : α → β}
    (l : List α) (h : ∀ a ∈ l, f a = some (g a)) : l.filterMap f = l.map g := by
  induction l with
  | nil => rfl
  | cons a l ih =>
    rw [List.filterMap_cons, h a (List.mem_cons_self a l), List.map_cons,
      ih (fun b hb => h b (List.mem_cons_of_mem a hb))]

lemma div10_strict {a b : ℕ} (h : a + 10 ≤ b) : a / 10 < b / 10 := by omega

/-- C5: if at most `MAX_ANALYSIS_GAMES (10)` games are given, the Aggregator
analyzes all of them in input order; otherwise it analyzes exactly the games
at indices `int(i * len / 10)` for `i = 0..9`, which are strictly increasing
(hence distinct) positions of the input.  Determinism is immediate because
`gamesToAnalyze` is a pure function of its input. -/
theorem C5_game_selection (games_data : List GameData) :
    (games_data.length ≤ 10 → gamesToAnalyze games_data = games_data) ∧
    (10 < games_data.length →
      gamesToAnalyze games_data =
        (List.range 10).map
          (fun i => games_data.getD (i * games_data.length / 10) defaultGameData) ∧
      (∀ i j, i < j → j < 10 →
        i * games_data.length / 10 < j * games_data.length / 10)) := by
  constructor
  · intro h
    rw [gamesToAnalyze, if_pos (by simpa [MAX_ANALYSIS_GAMES] using h)]
  · intro h
    have hidx : ∀ i < 10, i * games_data.length / 10 < games_data.length := by
      intro i hi
      rw [Nat.div_lt_iff_lt_mul (by norm_num)]
      calc i * games_data.length < 10 * games_data.length :=
            mul_lt_mul_of_pos_right hi (by omega)
      _ = games_data.length * 10 := Nat.mul_comm _ _
    constructor
    · rw [gamesToAnalyze]
      rw [if_neg (show ¬ games_data.length ≤ MAX_ANALYSIS_GAMES by
        show ¬ games_data.length ≤ 10
        omega)]
      rw [_select_games_for_analysis]
      rw [if_neg (show ¬ games_data.isEmpty = true by
        cases games_data with
        | nil => simp at h
        | cons a l => simp)]
      rw [if_neg (show ¬ games_data.length ≤ MAX_ANALYSIS_GAMES by
        show ¬ games_data.length ≤ 10
        omega)]
      simp only [MAX_ANALYSIS_GAMES]
      refine filterMap_eq_map_of_forall _ (fun i hi => ?_)
      rw [List.mem_range] at hi
      dsimp only
      rw [dif_pos (hidx i hi), List.getD_eq_getElem _ _ (hidx i hi)]
      simp [List.get_eq_getElem]
    · intro i j hij hj
      apply div10_strict
      have h1 : (i + 1) * games_data.length ≤ j * games_data.length :=
        Nat.mul_le_mul_right _ hij
      have h2 : i * games_data.length + games_data.length = (i + 1) * games_data.length := by
        ring
      omega

/-- Witness for C5 at a 3-game input and a 12-game input. -/
theorem C5_game_selection_witness :
    gamesToAnalyze (List.replicate 3 defaultGameData) = List.replicate 3 defaultGameData ∧
    gamesToAnalyze (List.replicate 12 defaultGameData) =
      (List.range 10).map
        (fun i => (List.replicate 12 defaultGameData).getD
          (i * (List.replicate 12 defaultGameData).length / 10) defaultGameData) ∧
    (∀ i j, i < j → j < 10 →
      i * (List.replicate 12 defaultGameData).length / 10 <
        j * (List.replicate 12 defaultGameData).length / 10) :=
  ⟨(C5_game_selection (List.replicate 3 defaultGameData)).1 (by simp),
    (C5_game_selection (List.replicate 12 defaultGameData)).2 (by simp)⟩

/-- C7: if the service is disabled or the engine process fails to start,
`aggregate_mistake_analysis` returns the well-formed empty aggregation
(all-zero stage stats, no worst/critical records, zeroed sample metadata)
instead of raising. -/
theorem C7_engine_unavailable_empty (enabled engine_started : Bool)
    (games_data : List GameData) (username : String) (oracle : ℕ → ℕ → Option ℤ)
    (h : enabled = false ∨ engine_started = false) :
    aggregate_mistake_analysis enabled engine_started games_data username oracle =
      _empty_aggregation ∧
    _empty_aggregation =
      ⟨⟨0, 0, 0, 0, 0, [], none, 0, none, 0, 0, 0, 0, 0, 0⟩,
        ⟨0, 0, 0, 0, 0, [], none, 0, none, 0, 0, 0, 0, 0, 0⟩,
        ⟨0, 0, 0, 0, 0, [], none, 0, none, 0, 0, 0, 0, 0, 0⟩, ⟨0, 0, 0⟩⟩ := by
  constructor
  · rcases h with h | h <;> subst h
    · rfl
    · cases enabled <;> rfl
  · rfl

/-- Witness for C7 with the engine failing to start on a 1-game input. -/
theorem C7_engine_unavailable_empty_witness :
    aggregate_mistake_analysis true false [defaultGameData] "alice" (fun _ _ => none) =
      _empty_aggregation ∧
    _empty_aggregation =
      ⟨⟨0, 0, 0, 0, 0, [], none, 0, none, 0, 0, 0, 0, 0, 0⟩,
        ⟨0, 0, 0, 0, 0, [], none, 0, none, 0, 0, 0, 0, 0, 0⟩,
        ⟨0, 0, 0, 0, 0, [], none, 0, none, 0, 0, 0, 0, 0, 0⟩, ⟨0, 0, 0⟩⟩ :=
  C7_engine_unavailable_empty true false [defaultGameData] "alice" (fun _ _ => none)
    (Or.inr rfl)

/-- Counterexample to C6 as stated: on a 2-game batch whose second game has
no PGN, only one game contributes statistics (one recorded mistake, one
recorded loss), yet `sample_info.analyzed_games` — the sample metadata and
the denominator `analyzed_games_count` of the per-game averages (both are
`len(games_to_analyze)`, lines 512 and 622) — still counts the failed game:
it is 2, where the claim requires the failed game not to be counted (1). -/
theorem C6_counterexample :
    (aggregate_mistake_analysis true true [gGood, gBad] "alice" c6oracle).sample_info.analyzed_games = 2 ∧
    (aggregate_mistake_analysis true true [gGood, gBad] "alice" c6oracle).early.mistake_moves = 1 ∧
    (aggregate_mistake_analysis true true [gGood, gBad] "alice" c6oracle).early.cp_losses = [100] := by
  refine ⟨?_, ?_, ?_⟩ <;> decide

lemma aggregateStep_sample_info (ul : String) (oracle : ℕ → ℕ → Option ℤ)
    (acc : Aggregated) (p : ℕ × GameData) :
    (aggregateStep ul oracle acc p).sample_info = acc.sample_info := by
  rw [aggregateStep]
  cases p.2.pgn <;> rfl

lemma foldl_sample_info (ul : String) (oracle : ℕ → ℕ → Option ℤ)
    (l : List (ℕ × GameData)) (acc : Aggregated) :
    (l.foldl (aggregateStep ul oracle) acc).sample_info = acc.sample_info := by
  induction l generalizing acc with
  | nil => rfl
  | cons p l ih => rw [List.foldl_cons, ih, aggregateStep_sample_info]

/-- C6 amended: a selected game whose PGN is missing contributes nothing to
the aggregated per-stage statistics (the loop body is the identity on the
accumulator, so the remaining games are processed exactly as before and the
batch is not aborted), but — unlike the claim as stated — it remains counted
in `sample_info.analyzed_games`, which is also the denominator
`analyzed_games_count` of the per-game averages: that counter always equals
the number of selected games, failures included. -/
theorem C6_failed_game_skipped_but_counted :
    (∀ (username_lower : String) (oracle : ℕ → ℕ → Option ℤ) (acc : Aggregated)
      (idx : ℕ) (gd : GameData), gd.pgn = none →
      aggregateStep username_lower oracle acc (idx, gd) = acc) ∧
    (∀ (games_data : List GameData) (username : String) (oracle : ℕ → ℕ → Option ℤ),
      (aggregate_mistake_analysis true true games_data username oracle).sample_info.analyzed_games =
        (gamesToAnalyze games_data).length) := by
  constructor
  · intro ul oracle acc idx gd h
    rw [aggregateStep]
    dsimp only
    rw [h]
  · intro games_data username oracle
    rw [aggregate_mistake_analysis]
    simp only [Bool.not_true, Bool.false_eq_true, if_false, ite_false]
    rw [foldl_sample_info]

/-- Witness for the amended C6 at the concrete 2-game batch. -/
theorem C6_failed_game_skipped_but_counted_witness :
    aggregateStep "alice" c6oracle _empty_aggregation (1, gBad) = _empty_aggregation ∧
    (aggregate_mistake_analysis true true [gGood, gBad] "alice" c6oracle).sample_info.analyzed_games =
      (gamesToAnalyze [gGood, gBad]).length :=
  ⟨C6_failed_game_skipped_but_counted.1 "alice" c6oracle _empty_aggregation 1 gBad rfl,
    C6_failed_game_skipped_but_counted.2 [gGood, gBad] "alice" c6oracle⟩

lemma mergeCounts_critical (agg : AggStage) (sd : StageStats) :
    (mergeCounts agg sd).critical_mistake_game = agg.critical_mistake_game := rfl

lemma mergeCounts_cp_losses (agg : AggStage) (sd : StageStats) :
    (mergeCounts agg sd).cp_losses = agg.cp_losses ++ sd.cp_losses := rfl

lemma mergeWorstGame_critical (a1 : AggStage) (w : WorstMistake) (idx : ℕ) (url : String) :
    (mergeWorstGame a1 w idx url).critical_mistake_game = a1.critical_mistake_game := by
  rw [mergeWorstGame]
  cases a1.worst_game
  · rfl
  · dsimp only
    split_ifs <;> rfl

lemma mergeWorstGame_cp_losses (a1 : AggStage) (w : WorstMistake) (idx : ℕ) (url : String) :
    (mergeWorstGame a1 w idx url).cp_losses = a1.cp_losses := by
  rw [mergeWorstGame]
  cases a1.worst_game
  · rfl
  · dsimp only
    split_ifs <;> rfl

lemma mergeCritical_cp_losses (a2 : AggStage) (w : WorstMistake) (idx : ℕ)
    (url : String) (piw : Bool) (pr term : String) :
    (mergeCritical a2 w idx url piw pr term).cp_losses = a2.cp_losses := by
  rw [mergeCritical]
  split_ifs <;> rfl

lemma mergeCritical_critical (a2 : AggStage) (w : WorstMistake) (idx : ℕ)
    (url : String) (piw : Bool) (pr term : String) (cg : CriticalGame)
    (h : (mergeCritical a2 w idx url piw pr term).critical_mistake_game = some cg) :
    (cg.result = pr ∧ cg.termination = term) ∨
      a2.critical_mistake_game = some cg := by
  rw [mergeCritical] at h
  split_ifs at h
  all_goals
    first
    | exact Or.inr h
    | (dsimp only at h
       rw [Option.some_inj] at h
       subst h
       exact Or.inl ⟨rfl, rfl⟩)

lemma mergeStage_criticalInv (sel : List GameData) (ul : String) (agg : AggStage)
    (sd : StageStats) (idx : ℕ) (url : String) (piw : Bool) (pr term : String)
    (iq : Bool)
    (hagg : CriticalInv sel ul agg)
    (hgd : ∃ gd ∈ sel, playerResultOf gd ul = pr ∧ playerTerminationOf gd ul = term)
    (hq : iq = true → isLossResult pr = true ∧ containsResign term = true)
    (hsd : ∀ w, sd.worst_mistake = some w → sd.cp_losses ≠ []) :
    CriticalInv sel ul (mergeStage agg sd idx url piw pr term iq) := by
  rw [mergeStage]
  cases hw : sd.worst_mistake with
  | none =>
    intro cg hcg
    rw [mergeCounts_critical] at hcg
    obtain ⟨p1, p2, p3, p4⟩ := hagg cg hcg
    refine ⟨p1, p2, ?_, p4⟩
    rw [mergeCounts_cp_losses]
    simp [p3]
  | some w =>
    have hnil : sd.cp_losses ≠ [] := hsd w hw
    dsimp only
    cases iq with
    | false =>
      rw [if_neg (by simp)]
      intro cg hcg
      rw [mergeWorstGame_critical, mergeCounts_critical] at hcg
      obtain ⟨p1, p2, p3, p4⟩ := hagg cg hcg
      refine ⟨p1, p2, ?_, p4⟩
      rw [mergeWorstGame_cp_losses, mergeCounts_cp_losses]
      simp [p3]
    | true =>
      rw [if_pos rfl]
      intro cg hcg
      have hcp : (mergeCritical (mergeWorstGame (mergeCounts agg sd) w idx url)
          w idx url piw pr term).cp_losses ≠ [] := by
        rw [mergeCritical_cp_losses, mergeWorstGame_cp_losses, mergeCounts_cp_losses]
        simp [hnil]
      rcases mergeCritical_critical _ _ _ _ _ _ _ _ hcg with ⟨hr, ht⟩ | hold
      · obtain ⟨hl, hc⟩ := hq rfl
        rw [hr, ht]
        exact ⟨hl, hc, hcp, by rw [← hr, ← ht] at hgd ⊢; exact hgd⟩
      · rw [mergeWorstGame_critical, mergeCounts_critical] at hold
        obtain ⟨p1, p2, p3, p4⟩ := hagg cg hold
        exact ⟨p1, p2, hcp, p4⟩

lemma aggregateStep_criticalInv (sel : List GameData) (ul : String)
    (oracle : ℕ → ℕ → Option ℤ) (acc : Aggregated) (p : ℕ × GameData)
    (hmem : p.2 ∈ sel)
    (h : CriticalInv sel ul acc.early ∧ CriticalInv sel ul acc.middle ∧
      CriticalInv sel ul acc.endgame) :
    CriticalInv sel ul (aggregateStep ul oracle acc p).early ∧
    CriticalInv sel ul (aggregateStep ul oracle acc p).middle ∧
    CriticalInv sel ul (aggregateStep ul oracle acc p).endgame := by
  rw [aggregateStep]
  cases hpgn : p.2.pgn with
  | none => exact h
  | some g =>
    dsimp only
    have hgd : ∃ gd ∈ sel, playerResultOf gd ul = playerResultOf p.2 ul ∧
        playerTerminationOf gd ul = playerTerminationOf p.2 ul :=
      ⟨p.2, hmem, rfl, rfl⟩
    have hq : (isLossResult (playerResultOf p.2 ul) &&
        (if playerTerminationOf p.2 ul = "" then false
          else containsResign (playerTerminationOf p.2 ul))) = true →
        isLossResult (playerResultOf p.2 ul) = true ∧
        containsResign (playerTerminationOf p.2 ul) = true := by
      intro hb
      rw [Bool.and_eq_true] at hb
      refine ⟨hb.1, ?_⟩
      rcases hb with ⟨-, hb2⟩
      split_ifs at hb2
      exact hb2
    have hinv := analyze_allWorstInv true g
      (if playerIsWhiteOf p.2 ul then "white" else "black") (oracle p.1)
    refine ⟨?_, ?_, ?_⟩
    · exact mergeStage_criticalInv _ _ _ _ _ _ _ _ _ _ h.1 hgd hq
        (fun w hw => worstInv_some_ne_nil _ hinv.1 w hw)
    · exact mergeStage_criticalInv _ _ _ _ _ _ _ _ _ _ h.2.1 hgd hq
        (fun w hw => worstInv_some_ne_nil _ hinv.2.1 w hw)
    · exact mergeStage_criticalInv _ _ _ _ _ _ _ _ _ _ h.2.2 hgd hq
        (fun w hw => worstInv_some_ne_nil _ hinv.2.2 w hw)

lemma foldl_criticalInv (sel : List GameData) (ul : String)
    (oracle : ℕ → ℕ → Option ℤ) (l : List (ℕ × GameData)) (acc : Aggregated)
    (hl : ∀ p ∈ l, p.2 ∈ sel)
    (h : CriticalInv sel ul acc.early ∧ CriticalInv sel ul acc.middle ∧
      CriticalInv sel ul acc.endgame) :
    CriticalInv sel ul ((l.foldl (aggregateStep ul oracle) acc)).early ∧
    CriticalInv sel ul ((l.foldl (aggregateStep ul oracle) acc)).middle ∧
    CriticalInv sel ul ((l.foldl (aggregateStep ul oracle) acc)).endgame := by
  induction l generalizing acc with
  | nil => exact h
  | cons p l ih =>
    rw [List.foldl_cons]
    exact ih _ (fun q hq => hl q (List.mem_cons_of_mem p hq))
      (aggregateStep_criticalInv sel ul oracle acc p (hl p (List.mem_cons_self p l)) h)

lemma finalizeStage_cp_losses (agg : AggStage) (c : ℕ) :
    (finalizeStage agg c).cp_losses = agg.cp_losses := by
  rw [finalizeStage]
  split_ifs with h1 h2 h2
  all_goals
    first
    | rfl
    | (cases hcr : agg.critical_mistake_game
       all_goals dsimp only
       all_goals split_ifs <;> rfl)

lemma finalizeStage_critical (agg : AggStage) (c : ℕ) (cg : CriticalGame)
    (hcg : (finalizeStage agg c).critical_mistake_game = some cg) :
    agg.critical_mistake_game = some cg ∧
    (agg.cp_losses ≠ [] → percentile_threshold agg.cp_losses ≤ cg.cp_loss) := by
  obtain ⟨tm, ia, mi, bl, mo, cps, wg, avg, cr, bm, nm, mm, ab, an, am⟩ := agg
  cases cr with
  | none =>
    exfalso
    rw [finalizeStage] at hcg
    dsimp only at hcg
    split_ifs at hcg
  | some cg0 =>
    rw [finalizeStage] at hcg
    dsimp only at hcg
    by_cases h3 : 0 < c
    · rw [if_pos h3] at hcg
      try dsimp only at hcg
      by_cases h1 : cps ≠ []
      · rw [if_pos h1] at hcg
        try dsimp only at hcg
        by_cases h2 : cg0.cp_loss < percentile_threshold cps
        · rw [if_pos h2] at hcg
          try dsimp only at hcg
          exact absurd hcg (by simp)
        · rw [if_neg h2] at hcg
          try dsimp only at hcg
          rw [Option.some_inj] at hcg
          subst hcg
          exact ⟨rfl, fun _ => le_of_not_lt h2⟩
      · rw [if_neg h1] at hcg
        try dsimp only at hcg
        rw [Option.some_inj] at hcg
        subst hcg
        exact ⟨rfl, fun hne => absurd hne (by simpa using h1)⟩
    · rw [if_neg h3] at hcg
      try dsimp only at hcg
      by_cases h1 : cps ≠ []
      · rw [if_pos h1] at hcg
        try dsimp only at hcg
        by_cases h2 : cg0.cp_loss < percentile_threshold cps
        · rw [if_pos h2] at hcg
          try dsimp only at hcg
          exact absurd hcg (by simp)
        · rw [if_neg h2] at hcg
          try dsimp only at hcg
          rw [Option.some_inj] at hcg
          subst hcg
          exact ⟨rfl, fun _ => le_of_not_lt h2⟩
      · rw [if_neg h1] at hcg
        try dsimp only at hcg
        rw [Option.some_inj] at hcg
        subst hcg
        exact ⟨rfl, fun hne => absurd hne (by simpa using h1)⟩

lemma finalizeStage_criticalInv (sel : List GameData) (ul : String) (agg : AggStage)
    (c : ℕ) (h : CriticalInv sel ul agg) (cg : CriticalGame)
    (hcg : (finalizeStage agg c).critical_mistake_game = some cg) :
    isLossResult cg.result = true ∧
    containsResign cg.termination = true ∧
    percentile_threshold agg.cp_losses ≤ cg.cp_loss ∧
    ∃ gd ∈ sel, playerResultOf gd ul = cg.result ∧
      playerTerminationOf gd ul = cg.termination := by
  obtain ⟨h1, h2⟩ := finalizeStage_critical agg c cg hcg
  obtain ⟨p1, p2, p3, p4⟩ := h cg h1
  exact ⟨p1, p2, h2 p3, p4⟩

lemma isLossResult_ne_win {r : String} (h : isLossResult r = true) : r ≠ "win" := by
  intro hw
  rw [hw] at h
  exact absurd h (by decide)

lemma getAggStage_empty (stage : String) :
    (getAggStage _empty_aggregation stage).critical_mistake_game = none := by
  rw [getAggStage]
  split_ifs <;> rfl

/-- C4: in every result of `aggregate_mistake_analysis`, each stage's
`critical_mistake_game` is either `none` (hypothesis fails) or stems from a
selected game in which the analyzed player's result is a loss (never a win)
and the termination text indicates resignation, and its `cp_loss` is at
least `max(75th percentile of the stage's aggregated cp_losses, 300)` (the
value `percentile_threshold` computes). -/
theorem C4_critical_mistake_gating (enabled engine_started : Bool)
    (games_data : List GameData) (username : String) (oracle : ℕ → ℕ → Option ℤ)
    (stage : String) (cg : CriticalGame)
    (h : (getAggStage (aggregate_mistake_analysis enabled engine_started games_data
        username oracle) stage).critical_mistake_game = some cg) :
    isLossResult cg.result = true ∧
    cg.result ≠ "win" ∧
    containsResign cg.termination = true ∧
    percentile_threshold (getAggStage (aggregate_mistake_analysis enabled engine_started
      games_data username oracle) stage).cp_losses ≤ cg.cp_loss ∧
    ∃ gd ∈ gamesToAnalyze games_data,
      playerResultOf gd (py_lower username) = cg.result ∧
      playerTerminationOf gd (py_lower username) = cg.termination := by
  cases enabled with
  | false =>
    rw [show aggregate_mistake_analysis false engine_started games_data username oracle =
      _empty_aggregation from rfl, getAggStage_empty] at h
    exact absurd h (by simp)
  | true =>
    cases engine_started with
    | false =>
      rw [show aggregate_mistake_analysis true false games_data username oracle =
        _empty_aggregation from rfl, getAggStage_empty] at h
      exact absurd h (by simp)
    | true =>
      rw [aggregate_mistake_analysis] at h ⊢
      simp only [Bool.not_true, Bool.false_eq_true, if_false, ite_false] at h ⊢
      have hinit : CriticalInv (gamesToAnalyze games_data) (py_lower username)
          emptyAggStage := by
        intro cg0 hcg0
        exact absurd hcg0 (by simp [emptyAggStage])
      have hl : ∀ p ∈ (gamesToAnalyze games_data).enum, p.2 ∈ gamesToAnalyze games_data := by
        intro p hp
        rw [← List.enum_map_snd (gamesToAnalyze games_data)]
        exact List.mem_map_of_mem Prod.snd hp
      rw [getAggStage] at h ⊢
      by_cases hs1 : stage = "early"
      · rw [if_pos hs1] at h ⊢
        obtain ⟨p1, p2, p3, p4⟩ := finalizeStage_criticalInv _ _ _ _
          (foldl_criticalInv (gamesToAnalyze games_data) (py_lower username) oracle
            (gamesToAnalyze games_data).enum _ hl ⟨hinit, hinit, hinit⟩).1 cg h
        rw [finalizeStage_cp_losses]
        exact ⟨p1, isLossResult_ne_win p1, p2, p3, p4⟩
      · rw [if_neg hs1] at h ⊢
        by_cases hs2 : stage = "middle"
        · rw [if_pos hs2] at h ⊢
          obtain ⟨p1, p2, p3, p4⟩ := finalizeStage_criticalInv _ _ _ _
            (foldl_criticalInv (gamesToAnalyze games_data) (py_lower username) oracle
              (gamesToAnalyze games_data).enum _ hl ⟨hinit, hinit, hinit⟩).2.1 cg h
          rw [finalizeStage_cp_losses]
          exact ⟨p1, isLossResult_ne_win p1, p2, p3, p4⟩
        · rw [if_neg hs2] at h ⊢
          obtain ⟨p1, p2, p3, p4⟩ := finalizeStage_criticalInv _ _ _ _
            (foldl_criticalInv (gamesToAnalyze games_data) (py_lower username) oracle
              (gamesToAnalyze games_data).enum _ hl ⟨hinit, hinit, hinit⟩).2.2 cg h
          rw [finalizeStage_cp_losses]
          exact ⟨p1, isLossResult_ne_win p1, p2, p3, p4⟩

/-- Witness for C4: the one-game batch `[g4]` produces an early-stage
critical mistake record, and the theorem's conclusions hold of it. -/
theorem C4_critical_mistake_gating_witness :
    isLossResult cg4.result = true ∧
    cg4.result ≠ "win" ∧
    containsResign cg4.termination = true ∧
    percentile_threshold (getAggStage (aggregate_mistake_analysis true true [g4]
      "carol" c4oracle) "early").cp_losses ≤ cg4.cp_loss ∧
    ∃ gd ∈ gamesToAnalyze [g4],
      playerResultOf gd (py_lower "carol") = cg4.result ∧
      playerTerminationOf gd (py_lower "carol") = cg4.termination :=
  C4_critical_mistake_gating true true [g4] "carol" c4oracle "early" cg4 (by decide)

lemma applyOp_preserves_absent (st : TaskState) (op : TaskOp) (task_id : String)
    (hop : op.targets ≠ some task_id)
    (h1 : st.background_tasks task_id = none)
    (h2 : st.task_results task_id = none) :
    (applyOp st op).background_tasks task_id = none ∧
    (applyOp st op).task_results task_id = none := by
  cases op with
  | create id2 t md now =>
    have hne : ¬ task_id = id2 := fun he => hop (by rw [TaskOp.targets, he])
    exact ⟨by rw [applyOp, create_task]; dsimp only; rw [if_neg hne]; exact h1, h2⟩
  | update id2 c s now =>
    have hne : ¬ task_id = id2 := fun he => hop (by rw [TaskOp.targets, he])
    exact ⟨by rw [applyOp, update_task_progress]; dsimp only; rw [if_neg hne]; exact h1, h2⟩
  | complete id2 r now =>
    have hne : ¬ task_id = id2 := fun he => hop (by rw [TaskOp.targets, he])
    constructor
    · rw [applyOp, complete_task]
      dsimp only
      rw [if_neg hne]
      exact h1
    · rw [applyOp, complete_task]
      dsimp only
      rw [if_neg hne]
      exact h2
  | fail id2 e now =>
    have hne : ¬ task_id = id2 := fun he => hop (by rw [TaskOp.targets, he])
    constructor
    · rw [applyOp, fail_task]
      dsimp only
      rw [if_neg hne]
      exact h1
    · rw [applyOp, fail_task]
      dsimp only
      rw [if_neg hne]
      exact h2
  | cleanup now =>
    refine ⟨h1, ?_⟩
    rw [applyOp, cleanup_old_tasks]
    dsimp only
    rw [h2]

lemma foldl_preserves_absent (ops : List TaskOp) (st : TaskState) (task_id : String)
    (hops : ∀ op ∈ ops, op.targets ≠ some task_id)
    (h1 : st.background_tasks task_id = none)
    (h2 : st.task_results task_id = none) :
    (ops.foldl applyOp st).background_tasks task_id = none ∧
    (ops.foldl applyOp st).task_results task_id = none := by
  induction ops generalizing st with
  | nil => exact ⟨h1, h2⟩
  | cons op ops ih =>
    rw [List.foldl_cons]
    obtain ⟨g1, g2⟩ := applyOp_preserves_absent st op task_id
      (hops op (List.mem_cons_self op ops)) h1 h2
    exact ih _ (fun o ho => hops o (List.mem_cons_of_mem op ho)) g1 g2

/-- C8: the task lifecycle.  (a) Immediately after `create_task`, the status
is `processing` with `current = 0` (and `percentage = 0`).  (b) After an
update with `current = c` of a task created with `total = t`, the reported
percentage is `int(c / t * 100)` when `t > 0` and `0` when `t` is not
positive.  (c) After `complete_task` (resp. `fail_task`), the status is the
terminal record carrying the result (resp. the error message) and the id is
no longer in the live map.  (d) The status of an id never submitted (no
operation of the run ever targeted it) is `none` — not found. -/
theorem C8_task_lifecycle :
    (∀ (st : TaskState) (task_id : String) (t : ℤ)
      (md : List (String × String)) (now : ℚ),
      get_task_status (create_task st task_id t md now) task_id =
        some (TaskStatus.processing ⟨0, t, 0⟩
          (toString (py_int (((t - 0 : ℤ) : ℚ) * (5 / 2))) ++ " seconds") md)) ∧
    (∀ (st : TaskState) (task_id : String) (t : ℤ) (md : List (String × String))
      (now : ℚ) (c : ℤ) (s : String) (now2 : ℚ),
      get_task_status (update_task_progress (create_task st task_id t md now)
        task_id c s now2) task_id =
        some (TaskStatus.processing
          ⟨c, t, if t > 0 then py_int ((c : ℚ) / (t : ℚ) * 100) else 0⟩
          (toString (py_int (((t - c : ℤ) : ℚ) * (5 / 2))) ++ " seconds") md)) ∧
    (∀ (st : TaskState) (task_id : String) (r : String) (now : ℚ),
      get_task_status (complete_task st task_id r now) task_id =
        some (TaskStatus.terminal ⟨"completed", some r, none, now⟩) ∧
      (complete_task st task_id r now).background_tasks task_id = none) ∧
    (∀ (st : TaskState) (task_id : String) (e : String) (now : ℚ),
      get_task_status (fail_task st task_id e now) task_id =
        some (TaskStatus.terminal ⟨"error", none, some e, now⟩) ∧
      (fail_task st task_id e now).background_tasks task_id = none) ∧
    (∀ (ops : List TaskOp) (task_id : String),
      (∀ op ∈ ops, op.targets ≠ some task_id) →
      get_task_status (ops.foldl applyOp initialTaskState) task_id = none) := by
  refine ⟨?_, ?_, ?_, ?_, ?_⟩
  · intro st task_id t md now
    simp [get_task_status, create_task]
  · intro st task_id t md now c s now2
    simp [get_task_status, update_task_progress, create_task]
  · intro st task_id r now
    constructor
    · simp [get_task_status, complete_task]
    · simp [complete_task]
  · intro st task_id e now
    constructor
    · simp [get_task_status, fail_task]
    · simp [fail_task]
  · intro ops task_id hops
    obtain ⟨g1, g2⟩ := foldl_preserves_absent ops initialTaskState task_id hops rfl rfl
    rw [get_task_status, g1, g2]

/-- Witness for C8 at concrete inputs (in particular part (d) with a run
that creates and completes only a different task id). -/
theorem C8_task_lifecycle_witness :
    get_task_status (create_task initialTaskState "t1" 10 [] 0) "t1" =
      some (TaskStatus.processing ⟨0, 10, 0⟩
        (toString (py_int (((10 - 0 : ℤ) : ℚ) * (5 / 2))) ++ " seconds") []) ∧
    get_task_status (update_task_progress (create_task initialTaskState "t1" 10 [] 0)
      "t1" 5 "processing" 1) "t1" =
      some (TaskStatus.processing
        ⟨5, 10, if (10 : ℤ) > 0 then py_int ((5 : ℚ) / (10 : ℚ) * 100) else 0⟩
        (toString (py_int (((10 - 5 : ℤ) : ℚ) * (5 / 2))) ++ " seconds") []) ∧
    get_task_status (complete_task initialTaskState "t1" "result" 2) "t1" =
      some (TaskStatus.terminal ⟨"completed", some "result", none, 2⟩) ∧
    get_task_status (fail_task initialTaskState "t1" "boom" 2) "t1" =
      some (TaskStatus.terminal ⟨"error", none, some "boom", 2⟩) ∧
    get_task_status ([TaskOp.create "other" 5 [] 0,
      TaskOp.complete "other" "r" 1].foldl applyOp initialTaskState) "t1" = none :=
  ⟨C8_task_lifecycle.1 initialTaskState "t1" 10 [] 0,
    C8_task_lifecycle.2.1 initialTaskState "t1" 10 [] 0 5 "processing" 1,
    (C8_task_lifecycle.2.2.1 initialTaskState "t1" "result" 2).1,
    (C8_task_lifecycle.2.2.2.1 initialTaskState "t1" "boom" 2).1,
    C8_task_lifecycle.2.2.2.2 [TaskOp.create "other" 5 [] 0,
      TaskOp.complete "other" "r" 1] "t1" (by decide)⟩

/-- C9: `cleanup_old_tasks` removes exactly the terminal records whose
completion timestamp is more than 3600 seconds old at sweep time — after the
sweep such an id is not found, while a terminal record at most 3600 seconds
old is still returned; the live map is untouched and absent results stay
absent. -/
theorem C9_cleanup_ttl (st : TaskState) (now : ℚ) (task_id : String)
    (record : TaskResult)
    (hbg : st.background_tasks task_id = none)
    (hres : st.task_results task_id = some record) :
    get_task_status (cleanup_old_tasks st now) task_id =
      (if now - record.completed_at > TASK_CLEANUP_TTL then none
        else some (TaskStatus.terminal record)) ∧
    (cleanup_old_tasks st now).background_tasks = st.background_tasks ∧
    (∀ id, st.task_results id = none →
      (cleanup_old_tasks st now).task_results id = none) := by
  refine ⟨?_, rfl, ?_⟩
  · rw [get_task_status, cleanup_old_tasks]
    dsimp only
    rw [hbg, hres]
    dsimp only
    split_ifs <;> rfl
  · intro id hid
    rw [cleanup_old_tasks]
    dsimp only
    rw [hid]

/-- Witness for C9: sweeping at time 4000 (age 4000 > 3600) removes the
record; sweeping at time 1000 (age 1000 ≤ 3600) retains it. -/
theorem C9_cleanup_ttl_witness :
    get_task_status (cleanup_old_tasks c9state 4000) "a" = none ∧
    get_task_status (cleanup_old_tasks c9state 1000) "a" =
      some (TaskStatus.terminal c9record) := by
  constructor
  · have h := (C9_cleanup_ttl c9state 4000 "a" c9record rfl (by simp [c9state])).1
    rw [if_pos (by norm_num [c9record, TASK_CLEANUP_TTL])] at h
    exact h
  · have h := (C9_cleanup_ttl c9state 1000 "a" c9record rfl (by simp [c9state])).1
    rw [if_neg (by norm_num [c9record, TASK_CLEANUP_TTL])] at h
    exact h

end Chesstic
